import Mathlib

/-!
Verification of the `tractor` actor-runtime core against its specification.

The definitions below are a shallow embedding of the Python sources
`src/tractor/_actor.py` and `src/tractor/_ipc.py`:

* pure computations become Lean functions;
* stateful code becomes explicit state passing over record types;
* a Python exception becomes an `Option`/`Except` failure value;
* a `trio.Event` becomes a `Bool` flag (or, where object identity matters,
  an allocated numeric id plus a fired-set);
* awaiting a completion event in a sequential model means the awaited task
  has run its own completion code before the waiter resumes.

Each section names the source lines it embeds.
-/

namespace Tractor

/-- Wire packets exchanged between actors (spec §3).  The source sends
python dicts with exactly one of the tagged shapes below
(`_actor.py` lines 112, 131, 137, 141, 153, 157, 164, 192, 195, 226-229,
601). `V` is the type of user payload values. -/
inductive Msg (V : Type) where
  | functype (kind : String) (cid : String)
  | yieldVal (v : V) (cid : String)
  | stop (cid : String)
  | ret (v : V) (cid : String)
  | errMsg (cid : Option String)
  | cmd (ns : String) (func : String) (cid : String)
  deriving DecidableEq, Repr

/-- The call-id carried by a packet, when present (`msg.get('cid')`,
`_actor.py` line 648; an internal error packet carries none). -/
def Msg.callId {V : Type} : Msg V → Option String
  | .functype _ c => some c
  | .yieldVal _ c => some c
  | .stop c => some c
  | .ret _ c => some c
  | .errMsg c => c
  | .cmd _ _ c => some c

/-! ## C1: the asyncgen branch of `_invoke` (`_actor.py` lines 111-137)

The callee-side invocation runner for an async-generator target:
send `{'functype': 'asyncgen', 'cid': cid}`, then inside the invocation's
cancel scope drain the generator under `aclosing` (so the generator is
closed on every exit, a cancellation of the stored scope included),
forwarding each produced item as `{'yield': item, 'cid': cid}`; the
cancel scope absorbs a cancellation of itself, after which
`{'stop': True, 'cid': cid}` is sent (line 137). -/

/-- The `async for item in agen: await chan.send({'yield': item, 'cid': cid})`
drain loop (`_actor.py` lines 123-131). -/
def drainGen {V : Type} (cid : String) : List V → List (Msg V)
  | [] => []
  | v :: rest => Msg.yieldVal v cid :: drainGen cid rest

/-- Result of one run of `_invoke` on an async-generator target: the packets
sent over the channel, in order, and whether the generator was closed. -/
structure InvokeOut (V : Type) where
  sent : List (Msg V)
  genClosed : Bool
  deriving DecidableEq, Repr

/-- The items actually produced before the drain loop ends: all of
`values` on a normal exit, a prefix when the stored cancel scope was
cancelled after `k` items. -/
def producedItems {V : Type} (values : List V) : Option Nat → List V
  | none => values
  | some k => values.take k

/-- The asyncgen branch of `_invoke` (`_actor.py` lines 111-137).
`values` are the items the generator would produce; `cancelAfter = some k`
models the stored cancel scope (`cancel_scope`, line 120) being cancelled
after `k` items were produced, in which case the `with cancel_scope`
block absorbs the cancellation, `aclosing` has closed the generator, and
line 137 still sends the final `stop` packet. -/
def invokeAsyncgen {V : Type} (cid : String) (values : List V)
    (cancelAfter : Option Nat) : InvokeOut V :=
  { sent := Msg.functype "asyncgen" cid ::
      (drainGen cid (producedItems values cancelAfter) ++ [Msg.stop cid]),
    genClosed := true }

/-- Boolean test used by the caller-side message loop to recognise a
reply packet for call-id `c` (`_actor.py` lines 648-651). -/
def hasCid {V : Type} [DecidableEq V] (c : String) (m : Msg V) : Bool :=
  decide (m.callId = some c)

/-- Embeds `Actor._push_result` (`_actor.py` lines 530-566): append the packet to
the per-call-id receive queue, preserving arrival order (the memory channel
is FIFO). `queues c` is the content of the queue for call-id `c`. -/
def pushResult {V : Type} (queues : String → List (Msg V)) (cid : String)
    (m : Msg V) : String → List (Msg V) :=
  fun c => if c = cid then queues c ++ [m] else queues c

/-- The reply-routing part of `Actor._process_messages` (`_actor.py` lines
628-655): for each packet read off the wire in order, if it carries a
call-id deliver it to that call-id's queue via `_push_result`. -/
def processReplies {V : Type} (queues : String → List (Msg V)) :
    List (Msg V) → (String → List (Msg V))
  | [] => queues
  | m :: rest =>
    match m.callId with
    | some cid => processReplies (pushResult queues cid m) rest
    | none => processReplies queues rest

theorem processReplies_eq {V : Type} [DecidableEq V]
    (wire : List (Msg V)) (queues : String → List (Msg V)) (c : String) :
    processReplies queues wire c = queues c ++ wire.filter (hasCid c) := by
  induction wire generalizing queues with
  | nil => simp [processReplies]
  | cons m rest ih =>
    cases hm : m.callId with
    | none =>
      have hc : hasCid c m = false := by
        simp [hasCid, hm]
      simp [processReplies, hm, List.filter, hc, ih]
    | some cid =>
      by_cases hcc : c = cid
      · subst hcc
        have hc : hasCid c m = true := by simp [hasCid, hm]
        simp [processReplies, hm, ih, pushResult, List.filter, hc,
          List.append_assoc]
      · have hc : hasCid c m = false := by
          simp [hasCid, hm]
          exact fun h => hcc h.symm
        simp [processReplies, hm, ih, pushResult, List.filter, hc, hcc]

theorem drainGen_eq_map {V : Type} (cid : String) (l : List V) :
    drainGen cid l = l.map (fun v => Msg.yieldVal v cid) := by
  induction l with
  | nil => rfl
  | cons v rest ih => simp [drainGen, ih]

/-- C1: for an async-generator invocation the callee sends
`functype asyncgen`, one `yield` per produced value in production order,
closes the generator on exit (on cancellation of the stored scope too),
and sends `stop` as the last packet; any wire trace whose
sub-sequence of packets for this call-id is exactly that reply trace is
dequeued by the caller in the same order, with no duplicates and `stop`
as the last observable. -/
theorem asyncgen_invocation_protocol {V : Type} [DecidableEq V]
    (cid : String) (values : List V) (cancelAfter : Option Nat)
    (wire : List (Msg V))
    (hwire : wire.filter (hasCid cid) =
      (invokeAsyncgen cid values cancelAfter).sent) :
    processReplies (fun _ => []) wire cid =
      Msg.functype "asyncgen" cid ::
        ((producedItems values cancelAfter).map (fun v => Msg.yieldVal v cid)
          ++ [Msg.stop cid]) ∧
    (processReplies (fun _ => []) wire cid).getLast? = some (Msg.stop cid) ∧
    (processReplies (fun _ => []) wire cid).count (Msg.stop cid) = 1 ∧
    (invokeAsyncgen cid values cancelAfter).genClosed = true := by
  have hq : processReplies (fun _ => []) wire cid =
      Msg.functype "asyncgen" cid ::
        ((producedItems values cancelAfter).map (fun v => Msg.yieldVal v cid)
          ++ [Msg.stop cid]) := by
    rw [processReplies_eq, hwire]
    simp [invokeAsyncgen, drainGen_eq_map]
  refine ⟨hq, ?_, ?_, rfl⟩
  · rw [hq]
    rw [show Msg.functype "asyncgen" cid ::
        ((producedItems values cancelAfter).map (fun v => Msg.yieldVal v cid)
          ++ [Msg.stop cid]) =
        (Msg.functype "asyncgen" cid ::
          (producedItems values cancelAfter).map (fun v => Msg.yieldVal v cid))
          ++ [Msg.stop cid] by simp]
    exact List.getLast?_concat _
  · rw [hq]
    have h0 : ((producedItems values cancelAfter).map
        (fun v => Msg.yieldVal v cid)).count (Msg.stop cid) = 0 := by
      refine List.count_eq_zero.mpr ?_
      simp
    simp [List.count_cons, List.count_append, h0]

/-- Witness for C1 at a concrete invocation: values `[1, 2]`, no
cancellation, the wire trace being exactly the callee's reply trace. -/
theorem tractor_c1_witness :
    processReplies (fun _ => ([] : List (Msg Nat)))
        (invokeAsyncgen "c1" [1, 2] none).sent "c1" =
      Msg.functype "asyncgen" "c1" ::
        ((producedItems [1, 2] none).map (fun v => Msg.yieldVal v "c1")
          ++ [Msg.stop "c1"]) :=
  (asyncgen_invocation_protocol "c1" [1, 2] none
    (invokeAsyncgen "c1" ([1, 2] : List Nat) none).sent (by decide)).1

/-! ## C2/C3: RPC-task bookkeeping and the actor cancel state machine

`Actor._rpc_tasks : (chan, cid) -> (cancel_scope, func, is_complete)`
(`_actor.py` lines 339-343).  A channel is identified by a numeric id,
a task entry holds the cancel-scope state, the invoked function and the
completion event. -/

/-- The function recorded in a task-table entry.  `_cancel_task` compares it
by identity against the bound `self._cancel_task` (`_actor.py` line 1168). -/
inductive FuncRef where
  | cancelTaskFn
  | userFn (name : String)
  deriving DecidableEq, Repr

/-- One `_rpc_tasks` entry: `(cancel_scope, func, is_complete)`. -/
structure RpcTaskEntry where
  scopeCancelled : Bool
  func : FuncRef
  deriving DecidableEq, Repr

/-- Task-table key `(chan, cid)`; channels are identified by number. -/
abbrev TaskKey := Nat × String

/-- The RPC-task bookkeeping of an actor: the task table `_rpc_tasks`
(`_actor.py` lines 339-343), the `_ongoing_rpc_tasks` event (lines
337-338) and, since the per-entry `is_complete` events are shared with
waiting cancellers, the set of `is_complete` events that have been
`.set()` (`completedLatches`). -/
structure TaskTable where
  rpcTasks : List (TaskKey × RpcTaskEntry)
  ongoingRpcTasksSet : Bool
  completedLatches : List TaskKey
  deriving DecidableEq, Repr

/-- The actor runtime state touched by `Actor.cancel` and
`Actor._cancel_task` (`_actor.py` lines 301-302, 337-343, 1065, 1086,
1097-1134, 1144-1181). -/
structure ActorState where
  cancelCalled : Bool
  cancelComplete : Bool
  tasks : TaskTable
  debugReqCancelled : Bool
  serverCancelScopeCancelled : Bool
  serverDown : Bool
  serviceCancelScopeCancelled : Bool
  deriving DecidableEq, Repr

/-- Embeds `scope.cancel()` on the stored cancel scope of entry `key`
(`_actor.py` line 1171). -/
def setScopeCancelled (st : TaskTable) (key : TaskKey) : TaskTable :=
  let tasks := st.rpcTasks.map fun kv =>
    if kv.1 = key then (kv.1, RpcTaskEntry.mk true kv.2.func) else kv
  { st with rpcTasks := tasks }

/-- The `finally` block of `_invoke` (`_actor.py` lines 241-255): pop the
task's entry, set its `is_complete` event, and when the table has emptied
set the `_ongoing_rpc_tasks` event. -/
def completeTask (st : TaskTable) (key : TaskKey) : TaskTable :=
  let tasks := st.rpcTasks.filter (fun kv => kv.1 ≠ key)
  { st with rpcTasks := tasks,
            completedLatches := st.completedLatches ++ [key],
            ongoingRpcTasksSet :=
              if tasks.isEmpty then true else st.ongoingRpcTasksSet }

/-- Outcome of `Actor._cancel_task`. -/
inductive CancelTaskOutcome where
  | missing      -- `KeyError` on the table lookup: already completed, return
  | refusedSelf  -- the entry's func is `self._cancel_task`: refuse
  | cancelled    -- scope cancelled, then `await is_complete.wait()` returned
  deriving DecidableEq, Repr

/-- Embeds `Actor._cancel_task` (`_actor.py` lines 1144-1181).  Look up
`(chan, cid)`; a `KeyError` returns with no state change; if the recorded
function is `self._cancel_task` return without cancelling; otherwise
`scope.cancel()` and `await is_complete.wait()` — in this sequential model
the wait returns only after the cancelled `_invoke` task has run its
`finally` block, i.e. after `completeTask`. -/
def Actor.cancelTask (st : TaskTable) (key : TaskKey) :
    TaskTable × CancelTaskOutcome :=
  match st.rpcTasks.lookup key with
  | none => (st, .missing)
  | some entry =>
    if entry.func = .cancelTaskFn then (st, .refusedSelf)
    else (completeTask (setScopeCancelled st key) key, .cancelled)

/-- The per-entry body of the loop in `Actor.cancel_rpc_tasks`
(`_actor.py` lines 1193-1200), iterating over a snapshot
(`tasks.copy().items()`) of the table with `only_chan = None`. -/
def cancelRpcTasksLoop (st : TaskTable) :
    List (TaskKey × RpcTaskEntry) → TaskTable
  | [] => st
  | (key, e) :: rest =>
    let st1 := if e.func ≠ FuncRef.cancelTaskFn then (Actor.cancelTask st key).1
               else st
    cancelRpcTasksLoop st1 rest

/-- Embeds `await self._ongoing_rpc_tasks.wait()` (`_actor.py` line 1204): the
waiter resumes once every remaining task has run its `finally` block
(`completeTask`), which empties the table and sets the event. -/
def drainRemaining (st : TaskTable) : TaskTable :=
  st.rpcTasks.foldl (fun s kv => completeTask s kv.1) st

/-- Embeds `Actor.cancel_rpc_tasks` (`_actor.py` lines 1183-1204) with
`only_chan = None`: nothing happens when the table is empty (the
`if tasks:` guard); otherwise cancel every entry whose func is not
`_cancel_task`, then wait for the remaining tasks to complete. -/
def Actor.cancelRpcTasks (st : TaskTable) : TaskTable :=
  if st.rpcTasks.isEmpty then st
  else drainRemaining (cancelRpcTasksLoop st st.rpcTasks)

/-- Embeds `Actor.cancel` (`_actor.py` lines 1097-1134): set `_cancel_called`;
under a shield cancel any debugger-request scope, cancel all rpc tasks,
cancel the channel server and wait for `_server_down` (set by
`_serve_forever`'s `finally` once the server nursery exits, line 1086),
cancel the service nursery's scope; finally set `_cancel_complete` and
return `True`. -/
def Actor.cancel (st : ActorState) : ActorState × Bool :=
  let st1 := { st with cancelCalled := true }
  let st2 := { st1 with debugReqCancelled := true }
  let st3 := { st2 with tasks := Actor.cancelRpcTasks st2.tasks }
  let st4 := { st3 with serverCancelScopeCancelled := true }
  let st5 := { st4 with serverDown := true }
  let st6 := { st5 with serviceCancelScopeCancelled := true }
  ({ st6 with cancelComplete := true }, true)

theorem lookup_filter_ne {α β : Type} [BEq α] [LawfulBEq α] [DecidableEq α]
    (key : α) (l : List (α × β)) :
    (l.filter (fun kv => kv.1 ≠ key)).lookup key = none := by
  induction l with
  | nil => rfl
  | cons kv rest ih =>
    obtain ⟨k1, v1⟩ := kv
    rw [List.filter_cons]
    by_cases h : k1 = key
    · rw [if_neg (by simp [h])]
      exact ih
    · rw [if_pos (by simp [h])]
      have hb : (key == k1) = false := by
        simp [Ne.symm h]
      rw [List.lookup_cons, hb]
      exact ih

theorem lookup_map_setScope (key : TaskKey)
    (l : List (TaskKey × RpcTaskEntry)) (e : RpcTaskEntry)
    (he : l.lookup key = some e) :
    (l.map fun kv =>
        if kv.1 = key then (kv.1, RpcTaskEntry.mk true kv.2.func)
        else kv).lookup key = some (RpcTaskEntry.mk true e.func) := by
  induction l with
  | nil => simp at he
  | cons kv rest ih =>
    obtain ⟨k1, v1⟩ := kv
    rw [List.map_cons]
    by_cases h : key = k1
    · have hb : (key == k1) = true := by simp [h]
      rw [List.lookup_cons, hb] at he
      have he2 : v1 = e := Option.some.inj he
      simp only [if_pos h.symm]
      rw [List.lookup_cons, hb]
      rw [he2]
    · have hb : (key == k1) = false := by simp [h]
      rw [List.lookup_cons, hb] at he
      simp only [if_neg (fun hc => h (Eq.symm hc))]
      rw [List.lookup_cons, hb]
      exact ih he

/-- C2: `Actor._cancel_task(cid, chan)`: a missing task-table entry
returns without error or state change; an entry recording `_cancel_task`
itself returns without cancelling; otherwise the entry's stored cancel
scope is triggered and the call waits for the entry's `is_complete`
done-latch, returning only once the task's `finally` block has popped the
entry and set the latch. -/
theorem cancel_task_spec (st : TaskTable) (key : TaskKey) :
    (st.rpcTasks.lookup key = none →
      Actor.cancelTask st key = (st, CancelTaskOutcome.missing)) ∧
    (∀ e : RpcTaskEntry, st.rpcTasks.lookup key = some e →
      e.func = FuncRef.cancelTaskFn →
      Actor.cancelTask st key = (st, CancelTaskOutcome.refusedSelf)) ∧
    (∀ e : RpcTaskEntry, st.rpcTasks.lookup key = some e →
      e.func ≠ FuncRef.cancelTaskFn →
      (Actor.cancelTask st key).2 = CancelTaskOutcome.cancelled ∧
      (setScopeCancelled st key).rpcTasks.lookup key =
        some (RpcTaskEntry.mk true e.func) ∧
      (Actor.cancelTask st key).1.rpcTasks.lookup key = none ∧
      key ∈ (Actor.cancelTask st key).1.completedLatches) := by
  refine ⟨?_, ?_, ?_⟩
  · intro h
    simp [Actor.cancelTask, h]
  · intro e he hf
    simp [Actor.cancelTask, he, hf]
  · intro e he hf
    refine ⟨by simp [Actor.cancelTask, he, hf], ?_, ?_, ?_⟩
    · exact lookup_map_setScope key st.rpcTasks e he
    · simp only [Actor.cancelTask, he, if_neg hf]
      exact lookup_filter_ne key _
    · simp [Actor.cancelTask, he, hf, completeTask]

/-- Witness for C2 on a concrete three-entry table: a missing key, an
entry recording `_cancel_task` itself, and an ordinary entry. -/
theorem tractor_c2_witness :
    (Actor.cancelTask
        ⟨[((0, "b"), ⟨false, FuncRef.cancelTaskFn⟩),
          ((0, "c"), ⟨false, FuncRef.userFn "f"⟩)], false, []⟩ (0, "a") =
      (⟨[((0, "b"), ⟨false, FuncRef.cancelTaskFn⟩),
          ((0, "c"), ⟨false, FuncRef.userFn "f"⟩)], false, []⟩,
        CancelTaskOutcome.missing)) ∧
    (Actor.cancelTask
        ⟨[((0, "b"), ⟨false, FuncRef.cancelTaskFn⟩),
          ((0, "c"), ⟨false, FuncRef.userFn "f"⟩)], false, []⟩ (0, "b") =
      (⟨[((0, "b"), ⟨false, FuncRef.cancelTaskFn⟩),
          ((0, "c"), ⟨false, FuncRef.userFn "f"⟩)], false, []⟩,
        CancelTaskOutcome.refusedSelf)) ∧
    ((Actor.cancelTask
        ⟨[((0, "b"), ⟨false, FuncRef.cancelTaskFn⟩),
          ((0, "c"), ⟨false, FuncRef.userFn "f"⟩)], false, []⟩ (0, "c")).2 =
      CancelTaskOutcome.cancelled ∧
      (0, "c") ∈ (Actor.cancelTask
        ⟨[((0, "b"), ⟨false, FuncRef.cancelTaskFn⟩),
          ((0, "c"), ⟨false, FuncRef.userFn "f"⟩)], false, []⟩
          (0, "c")).1.completedLatches) := by
  have h := cancel_task_spec
    ⟨[((0, "b"), ⟨false, FuncRef.cancelTaskFn⟩),
      ((0, "c"), ⟨false, FuncRef.userFn "f"⟩)], false, []⟩
  refine ⟨h (0, "a") |>.1 (by decide), ?_, ?_, ?_⟩
  · exact h (0, "b") |>.2.1 ⟨false, FuncRef.cancelTaskFn⟩ (by decide) rfl
  · exact (h (0, "c") |>.2.2 ⟨false, FuncRef.userFn "f"⟩ (by decide)
      (by decide)).1
  · exact (h (0, "c") |>.2.2 ⟨false, FuncRef.userFn "f"⟩ (by decide)
      (by decide)).2.2.2

theorem foldl_completeTask_empty
    (l : List (TaskKey × RpcTaskEntry)) :
    ∀ s : TaskTable, (∀ kv ∈ s.rpcTasks, kv.1 ∈ l.map Prod.fst) →
      (l.foldl (fun a kv => completeTask a kv.1) s).rpcTasks = [] := by
  induction l with
  | nil =>
    intro s h
    rw [List.foldl_nil]
    cases hs : s.rpcTasks with
    | nil => rfl
    | cons kv rest =>
      exact absurd (h kv (by rw [hs]; exact List.mem_cons_self kv rest))
        (by simp)
  | cons hd rest ih =>
    intro s h
    simp only [List.foldl_cons]
    apply ih
    intro kv hkv
    have hmem : kv ∈ s.rpcTasks ∧ decide (kv.1 ≠ hd.1) = true := by
      simpa [completeTask] using List.mem_filter.mp hkv
    have hne : kv.1 ≠ hd.1 := by simpa using hmem.2
    have := h kv hmem.1
    simp only [List.map_cons, List.mem_cons] at this
    rcases this with h1 | h2
    · exact absurd h1 hne
    · exact h2

theorem drainRemaining_empty (s : TaskTable) :
    (drainRemaining s).rpcTasks = [] :=
  foldl_completeTask_empty s.rpcTasks s
    (fun _ hkv => List.mem_map_of_mem Prod.fst hkv)

theorem cancelRpcTasks_empties (s : TaskTable) :
    (Actor.cancelRpcTasks s).rpcTasks = [] := by
  by_cases h : s.rpcTasks.isEmpty
  · simp only [Actor.cancelRpcTasks, if_pos h]
    exact List.isEmpty_iff.mp h
  · simp only [Actor.cancelRpcTasks, if_neg h]
    exact drainRemaining_empty _

theorem cancelRpcTasks_of_empty (s : TaskTable) (h : s.rpcTasks = []) :
    Actor.cancelRpcTasks s = s := by
  simp [Actor.cancelRpcTasks, h]

/-- C3: `Actor.cancel()` is idempotent: a second call returns the same
result `True` and leaves the actor in exactly the state the first call
produced — cancel-called flag set, cancel-complete event set, no
remaining RPC tasks, server down. -/
theorem cancel_idempotent (st : ActorState) :
    Actor.cancel (Actor.cancel st).1 = ((Actor.cancel st).1, true) ∧
    (Actor.cancel st).2 = true ∧
    (Actor.cancel st).1.cancelCalled = true ∧
    (Actor.cancel st).1.cancelComplete = true ∧
    (Actor.cancel st).1.tasks.rpcTasks = [] ∧
    (Actor.cancel st).1.serverDown = true := by
  have hpost : (Actor.cancel st).1 =
      ⟨true, true, Actor.cancelRpcTasks st.tasks, true, true, true, true⟩ :=
    rfl
  have htasks : (Actor.cancel st).1.tasks.rpcTasks = [] := by
    rw [hpost]
    exact cancelRpcTasks_empties st.tasks
  refine ⟨?_, rfl, by rw [hpost], by rw [hpost], htasks, by rw [hpost]⟩
  rw [hpost]
  show (⟨true, true,
      Actor.cancelRpcTasks (Actor.cancelRpcTasks st.tasks),
      true, true, true, true⟩, true) =
    ((⟨true, true, Actor.cancelRpcTasks st.tasks, true, true, true, true⟩ :
      ActorState), true)
  rw [cancelRpcTasks_of_empty (Actor.cancelRpcTasks st.tasks)
    (cancelRpcTasks_empties st.tasks)]

/-! ## C4/C7/C9: the arbiter's name registry (`_actor.py` lines 1252-1338)

The registry `self._registry : Dict[Tuple[str, str], Tuple[str, int]]`
is modelled as an association list in insertion order (python dicts
preserve insertion order, and `find_actor` iterates in that order). -/

abbrev Uid := String × String

abbrev SockAddr := String × Nat

abbrev Registry := List (Uid × SockAddr)

/-- Python dict assignment `d[k] = v`: replace the value in place when the
key is present (keeping its insertion position), else append. -/
def dictInsert {α β : Type} [BEq α] [DecidableEq α]
    (l : List (α × β)) (k : α) (v : β) : List (α × β) :=
  if (l.lookup k).isSome then l.map fun kv => if kv.1 = k then (k, v) else kv
  else l ++ [(k, v)]

theorem lookup_append_of_none {α β : Type} [BEq α]
    (key : α) (l1 l2 : List (α × β)) (h : l1.lookup key = none) :
    (l1 ++ l2).lookup key = l2.lookup key := by
  induction l1 with
  | nil => rfl
  | cons kv rest ih =>
    obtain ⟨k1, v1⟩ := kv
    rw [List.lookup_cons] at h
    rw [List.cons_append, List.lookup_cons]
    cases hb : (key == k1) with
    | true =>
      rw [hb] at h
      exact Option.noConfusion h
    | false =>
      rw [hb] at h
      exact ih h

theorem lookup_map_replace {α β : Type} [BEq α] [LawfulBEq α] [DecidableEq α]
    (k : α) (v : β) (l : List (α × β)) :
    (l.map fun kv => if kv.1 = k then (k, v) else kv).lookup k =
      (l.lookup k).map (fun _ => v) := by
  induction l with
  | nil => rfl
  | cons kv rest ih =>
    obtain ⟨k1, v1⟩ := kv
    rw [List.map_cons]
    by_cases hk : k1 = k
    · have hhd : (if (k1, v1).1 = k then (k, v) else (k1, v1)) = (k, v) :=
        if_pos hk
      rw [hhd, List.lookup_cons, List.lookup_cons]
      have hb : (k == k1) = true := by simp [hk.symm]
      have hb2 : (k == k) = true := by simp
      rw [hb, hb2]
      rfl
    · have hhd : (if (k1, v1).1 = k then (k, v) else (k1, v1)) = (k1, v1) :=
        if_neg hk
      rw [hhd, List.lookup_cons, List.lookup_cons]
      have hb : (k == k1) = false := by simp [Ne.symm hk]
      rw [hb]
      exact ih

theorem lookup_dictInsert {α β : Type} [BEq α] [LawfulBEq α] [DecidableEq α]
    (l : List (α × β)) (k : α) (v : β) :
    (dictInsert l k v).lookup k = some v := by
  unfold dictInsert
  by_cases h : (l.lookup k).isSome
  · rw [if_pos h]
    rw [lookup_map_replace]
    obtain ⟨w, hw⟩ := Option.isSome_iff_exists.mp h
    rw [hw]
    rfl
  · rw [if_neg h]
    have hnone : l.lookup k = none := Option.not_isSome_iff_eq_none.mp h
    rw [lookup_append_of_none k l _ hnone]
    rw [List.lookup_cons]
    have hb : (k == k) = true := by simp
    rw [hb]

/-- Embeds `Arbiter.unregister_actor` (`_actor.py` lines 1333-1338):
`self._registry.pop(uid)` takes no default, so a missing `uid` raises
`KeyError` — modelled as `none` (the raising call leaves the registry
unchanged); otherwise the entry is removed. -/
def Arbiter.unregister_actor (reg : Registry) (uid : Uid) : Option Registry :=
  if (reg.lookup uid).isSome then some (reg.filter fun kv => kv.1 ≠ uid)
  else none

/-- Embeds `Arbiter.find_actor` (`_actor.py` lines 1273-1278): iterate the
registry in insertion order and return the first `sockaddr` whose uid
passes the python tuple-membership test `name in uid` — true when `name`
equals either the name component or the instance-id component. -/
def Arbiter.find_actor (reg : Registry) (name : String) : Option SockAddr :=
  match reg with
  | [] => none
  | (uid, sockaddr) :: rest =>
    if name = uid.1 ∨ name = uid.2 then some sockaddr
    else Arbiter.find_actor rest name

/-- C4 counterexample: removing a uid and then calling
`unregister_actor` again on the emptied registry raises `KeyError`
(modelled `none`), refuting "completes without error" for the second
call. -/
theorem tractor_c4_counterexample :
    Arbiter.unregister_actor [(("a", "1"), ("h", 1))] ("a", "1") = some [] ∧
    Arbiter.unregister_actor [] ("a", "1") = none := by
  constructor <;> rfl

/-- C4 (amended): `unregister_actor(uid)` removes the entry when one
exists (every other entry is kept, and `uid` no longer resolves); when no
entry for `uid` exists — a second call after a successful removal
included — it raises `KeyError`, leaving the registry unchanged. -/
theorem unregister_actor_amended (reg : Registry) (uid : Uid) :
    (reg.lookup uid = none → Arbiter.unregister_actor reg uid = none) ∧
    (∀ addr : SockAddr, reg.lookup uid = some addr →
      ∃ reg2 : Registry, Arbiter.unregister_actor reg uid = some reg2 ∧
        reg2.lookup uid = none ∧
        ∀ kv ∈ reg, kv.1 ≠ uid → kv ∈ reg2) := by
  constructor
  · intro h
    simp [Arbiter.unregister_actor, h]
  · intro addr h
    refine ⟨reg.filter (fun kv => kv.1 ≠ uid), ?_,
      lookup_filter_ne uid reg, ?_⟩
    · simp [Arbiter.unregister_actor, h]
    · intro kv hkv hne
      exact List.mem_filter.mpr ⟨hkv, by simpa using hne⟩

/-- Witness for C4's amended theorem on a one-entry registry and on the
empty registry left behind by a successful removal. -/
theorem tractor_c4_witness :
    Arbiter.unregister_actor [] ("a", "1") = none ∧
    ∃ reg2 : Registry,
      Arbiter.unregister_actor [(("a", "1"), ("h", 1))] ("a", "1") =
        some reg2 ∧
      reg2.lookup ("a", "1") = none ∧
      ∀ kv ∈ [(("a", "1"), ("h", 1))], kv.1 ≠ ("a", "1") → kv ∈ reg2 :=
  ⟨(unregister_actor_amended [] ("a", "1")).1 rfl,
   (unregister_actor_amended [(("a", "1"), ("h", 1))] ("a", "1")).2
     ("h", 1) rfl⟩

/-- C9 counterexample: with a single registered actor named `alice`
carrying instance-id `u123`, the query `find_actor "u123"` matches no
actor's *name* yet yields `alice`'s address, because the source tests
`name in uid` over the whole uid tuple. -/
theorem tractor_c9_counterexample :
    Arbiter.find_actor [(("alice", "u123"), ("h", 1))] "u123" =
      some ("h", 1) ∧
    ("alice" : String) ≠ "u123" := by
  refine ⟨?_, by decide⟩
  rfl

/-- C9 (amended): `find_actor(name)` returns the address of the first
registered actor whose uid contains `name` as *either* component (name or
instance-id), and returns `None` exactly when no registered uid has
`name` in either component. -/
theorem find_actor_amended (reg : Registry) (name : String) :
    (Arbiter.find_actor reg name = none ↔
      ∀ kv ∈ reg, kv.1.1 ≠ name ∧ kv.1.2 ≠ name) ∧
    (∀ addr : SockAddr, Arbiter.find_actor reg name = some addr →
      ∃ kv ∈ reg, (kv.1.1 = name ∨ kv.1.2 = name) ∧ kv.2 = addr) := by
  induction reg with
  | nil =>
    constructor
    · simp [Arbiter.find_actor]
    · intro addr h
      exact Option.noConfusion h
  | cons kv rest ih =>
    obtain ⟨uid, sa⟩ := kv
    by_cases h : name = uid.1 ∨ name = uid.2
    · constructor
      · rw [show Arbiter.find_actor ((uid, sa) :: rest) name = some sa by
          simp [Arbiter.find_actor, h]]
        constructor
        · intro hc
          exact Option.noConfusion hc
        · intro hall
          rcases h with h1 | h2
          · exact absurd h1.symm (hall (uid, sa) (List.mem_cons_self _ _)).1
          · exact absurd h2.symm (hall (uid, sa) (List.mem_cons_self _ _)).2
      · intro addr haddr
        rw [show Arbiter.find_actor ((uid, sa) :: rest) name = some sa by
          simp [Arbiter.find_actor, h]] at haddr
        refine ⟨(uid, sa), List.mem_cons_self _ _, ?_, ?_⟩
        · rcases h with h1 | h2
          · exact Or.inl h1.symm
          · exact Or.inr h2.symm
        · exact Option.some.inj haddr
    · have hstep : Arbiter.find_actor ((uid, sa) :: rest) name =
          Arbiter.find_actor rest name := by
        simp [Arbiter.find_actor, h]
      push_neg at h
      constructor
      · rw [hstep, ih.1]
        constructor
        · intro hrest
          intro kv2 hkv2
          rcases List.mem_cons.mp hkv2 with heq | hmem
          · subst heq
            exact ⟨fun hc => h.1 hc.symm, fun hc => h.2 hc.symm⟩
          · exact hrest kv2 hmem
        · intro hall kv2 hkv2
          exact hall kv2 (List.mem_cons_of_mem _ hkv2)
      · intro addr haddr
        rw [hstep] at haddr
        obtain ⟨kv2, hmem, hcond, heq⟩ := ih.2 addr haddr
        exact ⟨kv2, List.mem_cons_of_mem _ hmem, hcond, heq⟩

/-- Witness for C9's amended theorem: the second component match from the
counterexample registry is produced by the theorem itself. -/
theorem tractor_c9_witness :
    ∃ kv ∈ ([(("alice", "u123"), ("h", 1))] : Registry),
      (kv.1.1 = "u123" ∨ kv.1.2 = "u123") ∧ kv.2 = ("h", 1) :=
  (find_actor_amended [(("alice", "u123"), ("h", 1))] "u123").2
    ("h", 1) rfl

/-! ## C7: `wait_for_actor` / `register_actor`
(`_actor.py` lines 1293-1331)

`self._waiters` maps a name to a *mixed* list holding `trio.Event`
objects appended by suspending waiters and, after a registration, the
registered uid.  Events have identity: we allocate numeric ids and track
the set of events that have been `.set()` in `firedEvents`; a suspended
waiter resumes exactly when its event id is fired. -/

/-- An element of a `self._waiters[name]` list. -/
inductive WaiterEntry where
  | event (id : Nat)
  | uidRef (uid : Uid)
  deriving DecidableEq, Repr

/-- Arbiter state for the registration protocol. -/
structure ArbState where
  registry : Registry
  waiters : List (String × List WaiterEntry)
  firedEvents : List Nat
  nextEventId : Nat
  deriving DecidableEq, Repr

/-- First phase of `Arbiter.wait_for_actor` (`_actor.py` lines
1302-1311): collect the sockaddrs of every registered uid whose *name
component* equals `name` (`if name == aname`); if none, allocate a
`trio.Event`, append it to `self._waiters.setdefault(name, [])` and
suspend on it. -/
inductive WaitEnterOutcome where
  | immediate (addrs : List SockAddr)
  | suspendedOn (eventId : Nat)
  deriving DecidableEq, Repr

def Arbiter.wait_for_actor_enter (st : ArbState) (name : String) :
    ArbState × WaitEnterOutcome :=
  let sockaddrs := st.registry.filterMap fun kv =>
    if kv.1.1 = name then some kv.2 else none
  if sockaddrs.isEmpty then
    let id := st.nextEventId
    let cur := (st.waiters.lookup name).getD []
    ({ st with
        waiters := dictInsert st.waiters name (cur ++ [WaiterEntry.event id]),
        nextEventId := id + 1 },
      WaitEnterOutcome.suspendedOn id)
  else (st, WaitEnterOutcome.immediate sockaddrs)

/-- Embeds `Arbiter.register_actor` (`_actor.py` lines 1317-1331): store the
entry in the registry; `events = self._waiters.pop(name, ())`; then
`self._waiters.setdefault(name, []).append(uid)` (the pop means the new
list is exactly `[uid]`); finally `.set()` every popped element that is a
`trio.Event`. -/
def Arbiter.register_actor (st : ArbState) (uid : Uid) (sockaddr : SockAddr) :
    ArbState :=
  let name := uid.1
  let registry := dictInsert st.registry uid sockaddr
  let events := (st.waiters.lookup name).getD []
  let waiters1 := st.waiters.filter fun kv => kv.1 ≠ name
  let waiters2 := dictInsert waiters1 name
    ((waiters1.lookup name).getD [] ++ [WaiterEntry.uidRef uid])
  let fired := st.firedEvents ++ events.filterMap fun e =>
    match e with
    | WaiterEntry.event i => some i
    | WaiterEntry.uidRef _ => none
  { st with registry := registry, waiters := waiters2, firedEvents := fired }

/-- Resume phase of `Arbiter.wait_for_actor` after the event fired
(`_actor.py` lines 1312-1315):
`for uid in self._waiters[name]: sockaddrs.append(self._registry[uid])`.
Both dict subscripts can raise `KeyError` (modelled `none`): the waiters
entry must exist and every element must be a uid present in the
registry. -/
def Arbiter.wait_for_actor_resume (st : ArbState) (name : String) :
    Option (List SockAddr) :=
  (st.waiters.lookup name).bind fun entries =>
    entries.mapM fun e =>
      match e with
      | WaiterEntry.uidRef u => st.registry.lookup u
      | WaiterEntry.event _ => none

/-- After any `register_actor((name, iid), addr)` the waiters list for
`name` is exactly `[uidRef (name, iid)]`, so a woken waiter's resume
phase returns `[addr]`. -/
theorem resume_after_register (st1 : ArbState) (name iid : String)
    (addr : SockAddr) :
    Arbiter.wait_for_actor_resume
      (Arbiter.register_actor st1 (name, iid) addr) name = some [addr] := by
  unfold Arbiter.register_actor Arbiter.wait_for_actor_resume
  simp only
  have hW1 : ((st1.waiters.filter fun kv => kv.1 ≠ name).lookup name) =
      none :=
    lookup_filter_ne name st1.waiters
  rw [lookup_dictInsert]
  rw [hW1]
  simp only [Option.getD_none, List.nil_append, Option.some_bind,
    List.mapM_cons, List.mapM_nil]
  rw [lookup_dictInsert]
  rfl

/-- C7: `wait_for_actor(name)` returns immediately with a non-empty
address list when some actor with that name is registered; otherwise it
registers a waiter latch and suspends, and a waiter suspended before
`register_actor(uid, addr)` with `uid`'s name equal to the waited name
has its latch fired by the registration and resumes to a list containing
`addr`. -/
theorem wait_for_actor_wakeup (st : ArbState) (name : String)
    (iid : String) (addr : SockAddr) :
    ((st.registry.filterMap fun kv =>
        if kv.1.1 = name then some kv.2 else none) ≠ [] →
      Arbiter.wait_for_actor_enter st name =
        (st, WaitEnterOutcome.immediate
          (st.registry.filterMap fun kv =>
            if kv.1.1 = name then some kv.2 else none)) ∧
      (st.registry.filterMap fun kv =>
        if kv.1.1 = name then some kv.2 else none) ≠ []) ∧
    ((st.registry.filterMap fun kv =>
        if kv.1.1 = name then some kv.2 else none) = [] →
      (Arbiter.wait_for_actor_enter st name).2 =
        WaitEnterOutcome.suspendedOn st.nextEventId ∧
      st.nextEventId ∈
        (Arbiter.register_actor (Arbiter.wait_for_actor_enter st name).1
          (name, iid) addr).firedEvents ∧
      Arbiter.wait_for_actor_resume
        (Arbiter.register_actor (Arbiter.wait_for_actor_enter st name).1
          (name, iid) addr) name = some [addr] ∧
      addr ∈ [addr]) := by
  constructor
  · intro h
    have hne : (st.registry.filterMap fun kv =>
        if kv.1.1 = name then some kv.2 else none).isEmpty = false := by
      simpa [List.isEmpty_iff] using h
    constructor
    · simp only [Arbiter.wait_for_actor_enter, hne]
      rfl
    · exact h
  · intro h
    have hemp : (st.registry.filterMap fun kv =>
        if kv.1.1 = name then some kv.2 else none).isEmpty = true := by
      simp [List.isEmpty_iff, h]
    have henter : Arbiter.wait_for_actor_enter st name =
        ({ st with
            waiters := dictInsert st.waiters name
              (((st.waiters.lookup name).getD []) ++
                [WaiterEntry.event st.nextEventId]),
            nextEventId := st.nextEventId + 1 },
          WaitEnterOutcome.suspendedOn st.nextEventId) := by
      simp only [Arbiter.wait_for_actor_enter, hemp, if_true]
    rw [henter]
    refine ⟨rfl, ?_, resume_after_register _ name iid addr,
      List.mem_singleton.mpr rfl⟩
    -- the popped events list contains our event, so its id is fired
    show st.nextEventId ∈
      (Arbiter.register_actor _ (name, iid) addr).firedEvents
    simp only [Arbiter.register_actor]
    rw [lookup_dictInsert]
    simp

/-- Witness for C7 at concrete states: an immediate hit on a registry
holding `alice`, and the suspend/register/resume round-trip for `bob` on
an empty arbiter. -/
theorem tractor_c7_witness :
    (Arbiter.wait_for_actor_enter
        ⟨[(("alice", "u1"), ("h", 1))], [], [], 0⟩ "alice" =
      (⟨[(("alice", "u1"), ("h", 1))], [], [], 0⟩,
        WaitEnterOutcome.immediate [("h", 1)]) ∧
      ([("h", 1)] : List SockAddr) ≠ []) ∧
    ((Arbiter.wait_for_actor_enter (⟨[], [], [], 0⟩ : ArbState) "bob").2 =
        WaitEnterOutcome.suspendedOn 0 ∧
      0 ∈ (Arbiter.register_actor
          (Arbiter.wait_for_actor_enter (⟨[], [], [], 0⟩ : ArbState)
            "bob").1 ("bob", "u2") ("h", 2)).firedEvents ∧
      Arbiter.wait_for_actor_resume
        (Arbiter.register_actor
          (Arbiter.wait_for_actor_enter (⟨[], [], [], 0⟩ : ArbState)
            "bob").1 ("bob", "u2") ("h", 2)) "bob" = some [("h", 2)] ∧
      ("h", 2) ∈ [(("h", 2) : SockAddr)]) := by
  constructor
  · exact (wait_for_actor_wakeup
      ⟨[(("alice", "u1"), ("h", 1))], [], [], 0⟩ "alice" "u1"
      ("h", 1)).1 (by decide)
  · exact (wait_for_actor_wakeup (⟨[], [], [], 0⟩ : ArbState) "bob" "u2"
      ("h", 2)).2 rfl

/-! ## C5: end-of-stream handling (`_ipc.py` lines 61-97, `_actor.py`
lines 758-789) -/

/-- Error kinds a receive step can raise. -/
inductive IpcErr where
  | transportClosed
  | brokenResource
  deriving DecidableEq, Repr

/-- What `await self.stream.receive_some(2**10)` produced: either a chunk
of bytes, or a `trio.BrokenResourceError` (whose message may carry
`[Errno 104]`, and the platform may be Windows). -/
inductive RecvRaw where
  | bytes (data : List Nat)
  | brokenErr (errno104 : Bool) (isWindows : Bool)
  deriving DecidableEq, Repr

/-- One read step of `MsgpackTCPStream._iter_packets` (`_ipc.py` lines
61-97): a zero-length read raises `TransportClosed`; a broken-resource
error carrying errno 104 (or any such error on Windows) is remapped to
`TransportClosed`, other broken-resource errors re-raise; otherwise the
chunk is fed to the streaming unpacker (modelled as returning the
chunk). -/
def iterPacketsStep : RecvRaw → Except IpcErr (List Nat)
  | RecvRaw.bytes data =>
    if data = [] then Except.error IpcErr.transportClosed
    else Except.ok data
  | RecvRaw.brokenErr e104 win =>
    if e104 || win then Except.error IpcErr.transportClosed
    else Except.error IpcErr.brokenResource

/-- The exception classes handled by `Actor._process_messages`
(`_actor.py` lines 758-789), in handler order. -/
inductive LoopException where
  | transportClosed
  | otherException
  | trioCancelled
  deriving DecidableEq, Repr

/-- Observable effect of a message-loop exception handler. -/
structure LoopExcResult where
  reraised : Bool
  shippedToParent : Bool
  deriving DecidableEq, Repr

/-- The exception handlers of `Actor._process_messages` (`_actor.py`
lines 758-789): `TransportClosed` is only logged — the loop exits cleanly
without shipping anything and without re-raising; any other
`Exception`/`trio.MultiError` is shipped to the parent channel (when one
exists and the service nursery was not already torn down) and re-raised;
`trio.Cancelled` is re-raised.  No handler sends a cid-tagged error
packet to an RPC caller. -/
def processMessagesOnExc (hasParentChan nurseryCancelledBeforeTask : Bool) :
    LoopException → LoopExcResult
  | LoopException.transportClosed =>
    { reraised := false, shippedToParent := false }
  | LoopException.otherException =>
    { reraised := true,
      shippedToParent := !nurseryCancelledBeforeTask && hasParentChan }
  | LoopException.trioCancelled =>
    { reraised := true, shippedToParent := false }

/-- C5: a zero-byte read on the underlying stream raises the
transport-closed kind instead of producing a packet, and the message
loop's handler for transport-closed exits cleanly: it ships no error and
re-raises nothing, for every parent-channel configuration. -/
theorem transport_closed_clean_exit :
    iterPacketsStep (RecvRaw.bytes []) =
      Except.error IpcErr.transportClosed ∧
    (∀ hp nc : Bool,
      processMessagesOnExc hp nc LoopException.transportClosed =
        { reraised := false, shippedToParent := false }) :=
  ⟨rfl, fun _ _ => rfl⟩

/-! ## C8: frame codec (`_ipc.py` lines 26-178, 186-218) -/

/-- Embeds `struct.pack("<I", n)`: the 4 little-endian bytes of `n < 2^32`. -/
def u32le (n : Nat) : List Nat :=
  [n % 256, n / 256 % 256, n / 65536 % 256, n / 16777216 % 256]

/-- Embeds `struct.unpack("<I", header)` on a 4-byte header. -/
def u32leDecode (b : List Nat) : Nat :=
  match b with
  | [b0, b1, b2, b3] => b0 + 256 * b1 + 65536 * b2 + 16777216 * b3
  | _ => 0

/-- Embeds `MsgspecTCPStream.send` (`_ipc.py` lines 169-178):
`size = struct.pack("<I", len(bytes_data)); send_all(size + bytes_data)`.
`payload` stands for the already-encoded message bytes produced by the
external `msgspec` encoder. -/
def MsgspecTCPStream.sendBytes (payload : List Nat) : List Nat :=
  u32le payload.length ++ payload

/-- Embeds `await self.recv_stream.receive_exactly(n)` on a buffered stream whose
pending bytes are `buf`: exactly `n` bytes and the remainder, or a
`ValueError` (modelled `none`) when the stream ends early. -/
def receiveExactly (n : Nat) (buf : List Nat) :
    Option (List Nat × List Nat) :=
  if n ≤ buf.length then some (buf.take n, buf.drop n) else none

/-- One frame of `MsgspecTCPStream._iter_packets` (`_ipc.py` lines
141-167): read exactly 4 header bytes, decode the length, read exactly
that many payload bytes. -/
def MsgspecTCPStream.recvFrame (buf : List Nat) :
    Option (List Nat × List Nat) :=
  match receiveExactly 4 buf with
  | none => none
  | some (header, rest) => receiveExactly (u32leDecode header) rest

/-- Embeds `MsgpackTCPStream.send` (`_ipc.py` lines 108-112): it writes
`msgpack.dumps(data)` — the bare encoded payload, with no length
header. -/
def MsgpackTCPStream.sendBytes (payload : List Nat) : List Nat := payload

inductive SerializerType where
  | msgpackTCPStream
  | msgspecTCPStream
  deriving DecidableEq, Repr

/-- The `stream_serializer_type` default of `Channel.__init__` (`_ipc.py`
line 195): `MsgpackTCPStream` (the `MsgspecTCPStream` default on line 194
is commented out). -/
def Channel.defaultSerializer : SerializerType :=
  SerializerType.msgpackTCPStream

/-- Wire bytes produced by one `send` of each serializer class. -/
def serializerSendBytes : SerializerType → List Nat → List Nat
  | SerializerType.msgpackTCPStream, p => MsgpackTCPStream.sendBytes p
  | SerializerType.msgspecTCPStream, p => MsgspecTCPStream.sendBytes p

theorem u32leDecode_u32le (n : Nat) (h : n < 4294967296) :
    u32leDecode (u32le n) = n := by
  simp only [u32le, u32leDecode]
  omega

/-- C8 counterexample: the codec the `Channel` uses by default is
`MsgpackTCPStream`, and its wire bytes for a 1-byte payload are the bare
payload, not the u32-LE length header followed by the payload. -/
theorem tractor_c8_counterexample :
    Channel.defaultSerializer = SerializerType.msgpackTCPStream ∧
    serializerSendBytes Channel.defaultSerializer [5] = [5] ∧
    u32le (([5] : List Nat)).length ++ [5] = [1, 0, 0, 0, 5] ∧
    ([5] : List Nat) ≠ [1, 0, 0, 0, 5] := by
  exact ⟨rfl, rfl, by decide, by decide⟩

/-- C8 (amended): the `u32 LE length ‖ payload` framing with
read-exactly-4-then-exactly-size decoding holds for `MsgspecTCPStream`;
the `Channel`'s default codec however is `MsgpackTCPStream`, which sends
the bare encoded payload with no length header (framing is left to the
streaming msgpack decoder). -/
theorem msgspec_framing_roundtrip (payload rest : List Nat)
    (h : payload.length < 4294967296) :
    MsgspecTCPStream.recvFrame (MsgspecTCPStream.sendBytes payload ++ rest) =
      some (payload, rest) ∧
    Channel.defaultSerializer = SerializerType.msgpackTCPStream ∧
    serializerSendBytes SerializerType.msgpackTCPStream payload = payload := by
  refine ⟨?_, rfl, rfl⟩
  have hlen4 : (u32le payload.length).length = 4 := rfl
  have hbuf : MsgspecTCPStream.sendBytes payload ++ rest =
      u32le payload.length ++ (payload ++ rest) := by
    simp [MsgspecTCPStream.sendBytes, List.append_assoc]
  rw [hbuf]
  unfold MsgspecTCPStream.recvFrame
  have h4 : receiveExactly 4 (u32le payload.length ++ (payload ++ rest)) =
      some (u32le payload.length, payload ++ rest) := by
    unfold receiveExactly
    rw [if_pos (by simp [hlen4])]
    rw [show (4 : Nat) = (u32le payload.length).length from hlen4.symm]
    rw [List.take_left, List.drop_left]
  rw [h4]
  show receiveExactly (u32leDecode (u32le payload.length)) (payload ++ rest) =
    some (payload, rest)
  rw [u32leDecode_u32le payload.length h]
  unfold receiveExactly
  rw [if_pos (by simp)]
  rw [List.take_left, List.drop_left]

/-- Witness for C8's amended theorem on a concrete 2-byte payload. -/
theorem tractor_c8_witness :
    MsgspecTCPStream.recvFrame
        (MsgspecTCPStream.sendBytes [7, 8] ++ [9]) = some ([7, 8], [9]) ∧
    Channel.defaultSerializer = SerializerType.msgpackTCPStream ∧
    serializerSendBytes SerializerType.msgpackTCPStream [7, 8] = [7, 8] :=
  msgspec_framing_roundtrip [7, 8] [9] (by decide)

/-! ## C6: unregistration during shutdown (`_actor.py` lines 1016-1036) -/

/-- The deadline of the `trio.move_on_after(0.5)` block around the
shutdown unregistration, in milliseconds (`_actor.py` line 1021). -/
def unregisterDeadlineMs : Nat := 500

/-- Embeds `cs.shield = True` (`_actor.py` line 1022). -/
def unregisterShielded : Bool := true

/-- How the one-shot arbiter portal call inside the deadline block can
end. -/
inductive PortalCallOutcome where
  | ok
  | osError
  | timedOut
  | remoteError
  deriving DecidableEq, Repr

/-- Observable effect of the unregistration block on the rest of the
teardown. -/
structure ShutdownUnregisterResult where
  completedTeardown : Bool
  loggedWarning : Bool
  deriving DecidableEq, Repr

/-- The unregistration block of `Actor._async_main`'s `finally`
(`_actor.py` lines 1016-1036): skipped entirely when not registered;
`except OSError: failed = True`; `if cs.cancelled_caught: failed = True`;
`if failed: log.warning(...)` and teardown continues.  An exception that
is not an `OSError` — such as the wrapper the portal raises for a remote
error — matches no handler and propagates out of the `finally`, aborting
the remaining teardown steps. -/
def unregisterOnShutdown (registeredWithArbiter : Bool)
    (outcome : PortalCallOutcome) : ShutdownUnregisterResult :=
  if !registeredWithArbiter then
    { completedTeardown := true, loggedWarning := false }
  else
    match outcome with
    | PortalCallOutcome.ok =>
      { completedTeardown := true, loggedWarning := false }
    | PortalCallOutcome.osError =>
      { completedTeardown := true, loggedWarning := true }
    | PortalCallOutcome.timedOut =>
      { completedTeardown := true, loggedWarning := true }
    | PortalCallOutcome.remoteError =>
      { completedTeardown := false, loggedWarning := false }

/-- Modelled from the spec: the caller side of the one-shot
`run_from_ns('self', 'unregister_actor', uid=self.uid)` portal call lives
in `_portal.py` / `_discovery.py`, which are not under `src/`.  Spec §7:
every non-cancel error raised by the remote function is packed and
re-raised at the caller as a `remote-actor-error` wrapper — which is not
an `OSError`.  The remote function here is `Arbiter.unregister_actor`,
which raises `KeyError` for an unknown uid. -/
def portalUnregisterOutcome (reg : Registry) (uid : Uid) :
    PortalCallOutcome :=
  match Arbiter.unregister_actor reg uid with
  | some _ => PortalCallOutcome.ok
  | none => PortalCallOutcome.remoteError

/-- C6 counterexample: a registered actor whose uid the arbiter no longer
holds gets a remote-error wrapper from the unregister call; the `finally`
block catches only `OSError` and the timeout, so this failure is not
merely logged — it propagates and the shutdown sequence does not complete
normally. -/
theorem tractor_c6_counterexample :
    portalUnregisterOutcome [] ("a", "1") =
      PortalCallOutcome.remoteError ∧
    unregisterOnShutdown true (portalUnregisterOutcome [] ("a", "1")) =
      { completedTeardown := false, loggedWarning := false } := by
  exact ⟨rfl, rfl⟩

/-- C6 (amended): the shutdown unregistration runs under a shielded
500 ms deadline; a timeout or an `OSError` is only logged and teardown
completes normally, but an error of any other kind raised by the call
(such as the portal's remote-error wrapper) propagates and aborts the
remaining teardown. -/
theorem unregister_shutdown_amended :
    unregisterDeadlineMs = 500 ∧
    unregisterShielded = true ∧
    unregisterOnShutdown true PortalCallOutcome.ok =
      { completedTeardown := true, loggedWarning := false } ∧
    unregisterOnShutdown true PortalCallOutcome.timedOut =
      { completedTeardown := true, loggedWarning := true } ∧
    unregisterOnShutdown true PortalCallOutcome.osError =
      { completedTeardown := true, loggedWarning := true } ∧
    unregisterOnShutdown true PortalCallOutcome.remoteError =
      { completedTeardown := false, loggedWarning := false } :=
  ⟨rfl, rfl, rfl, rfl, rfl, rfl⟩

/-! ## C10: the mutable `enable_modules` default (`_actor.py` lines
285-316) -/

/-- The single shared list object bound to the `enable_modules = []`
default parameter of `Actor.__init__` at function-definition time. -/
structure CtorEnv where
  defaultEnableModules : List String
  deriving DecidableEq, Repr

/-- The `enable_modules` handling of `Actor.__init__` (`_actor.py` lines
289, 309): `enable_modules.append('tractor._debug')` mutates the
argument list in place; when the argument is omitted, the list mutated is
the shared default object.  Returns the updated default environment and
the list the new actor iterates over. -/
def Actor.ctorInit (env : CtorEnv)
    (explicitModules : Option (List String)) : CtorEnv × List String :=
  match explicitModules with
  | some mods => (env, mods ++ ["tractor._debug"])
  | none =>
    let mods := env.defaultEnableModules ++ ["tractor._debug"]
    ({ defaultEnableModules := mods }, mods)

/-- Runs `k` successive constructions that omit `enable_modules`. -/
def defaultCtorIter : Nat → CtorEnv → CtorEnv
  | 0, env => env
  | Nat.succ k, env => defaultCtorIter k (Actor.ctorInit env none).1

theorem defaultCtorIter_eq (k : Nat) (env : CtorEnv) :
    defaultCtorIter k env =
      ⟨env.defaultEnableModules ++ List.replicate k "tractor._debug"⟩ := by
  induction k generalizing env with
  | zero =>
    cases env
    simp [defaultCtorIter]
  | succ n ih =>
    rw [defaultCtorIter, ih]
    simp [Actor.ctorInit, List.replicate_succ, List.append_assoc]

/-- C10: `Actor.__init__` appends `'tractor._debug'` to the caller's
`enable_modules` list in place, and because the default value is one
shared mutable list, every default construction appends one more entry to
it: after `k` default constructions the shared default holds `k` copies,
and the next default-constructed actor sees `k + 1` accumulated
(duplicate) entries. -/
theorem ctor_mutates_shared_default (k : Nat) (l : List String)
    (env : CtorEnv) :
    (Actor.ctorInit env (some l)).2 = l ++ ["tractor._debug"] ∧
    (defaultCtorIter k ⟨[]⟩).defaultEnableModules =
      List.replicate k "tractor._debug" ∧
    (Actor.ctorInit (defaultCtorIter k ⟨[]⟩) none).2 =
      List.replicate (k + 1) "tractor._debug" ∧
    ((Actor.ctorInit (defaultCtorIter k ⟨[]⟩) none).2).count
      "tractor._debug" = k + 1 := by
  have hiter : (defaultCtorIter k ⟨[]⟩).defaultEnableModules =
      List.replicate k "tractor._debug" := by
    rw [defaultCtorIter_eq]
    simp
  have hnext : (Actor.ctorInit (defaultCtorIter k ⟨[]⟩) none).2 =
      List.replicate (k + 1) "tractor._debug" := by
    simp only [Actor.ctorInit, hiter]
    rw [← List.replicate_succ']
  refine ⟨rfl, hiter, hnext, ?_⟩
  rw [hnext]
  simp

end Tractor
